import Mathlib

/-!
Verification of the live-stream control-plane logic of `src/src/LiveStream.js`
(class `EluvioLiveStream`): the status deriver (`Status`), the transition
orchestrator (`StartOrStopOrReset`, `StreamCreate`) and the insertion
scheduler (`Insertion`).

The JavaScript is shallowly embedded: every remote read (metadata documents,
LRO poll results, fabric URLs, clock) is an explicit input, JS `undefined` is
`Option.none`, JS numbers are exact rationals (`ℚ`), and a thrown JS exception
is an explicit error value.  Each definition mirrors the control flow of the
corresponding source function line by line; the line numbers cited in the doc
comments refer to `src/src/LiveStream.js`.
-/

namespace LiveStream

/-- A JavaScript runtime exception (only the kinds this code can throw). -/
inductive JsErr
  | typeError (msg : String)
  | referenceError (msg : String)
deriving Repr, DecidableEq

/-- An interleave (insertion) record as stored under
`live_recording.playout_config.interleaves` and as built by `Insertion`
(lines 706-712). -/
structure InsRec where
  insertion_time : ℚ
  duration : ℚ
  audio_abr_duration : ℚ
  video_abr_duration : ℚ
  playout : String
deriving Repr, DecidableEq

/-- `period.video_finalized_parts_info` (lines 134-145).
`last_finalization_time` is in microseconds (the code divides by 1000000). -/
structure PartsInfo where
  n_parts : ℕ
  last_finalization_time : ℚ
deriving Repr, DecidableEq

/-- One recording period, an element of `recordings.live_offering`
(lines 129-146). -/
structure RecordingPeriod where
  live_recording_handle : String
  recording_start_time_epoch_sec : ℚ
  start_time_epoch_sec : ℚ
  end_time_epoch_sec : ℚ
  video_finalized_parts_info : PartsInfo
deriving Repr, DecidableEq

/-- `edgeMeta.live_recording.recordings` (lines 119-129).
`recording_sequence` is `none` when the JS field is `undefined`; it is an
integer count (the code indexes `live_offering[recording_sequence - 1]`). -/
structure Recordings where
  recording_sequence : Option ℤ
  live_offering : List RecordingPeriod
deriving Repr, DecidableEq

/-- `edgeMeta.live_recording.playout_config` (lines 156-162, 698-700).
`interleaves` is `none` when the JS field is `undefined`. -/
structure PlayoutConfig where
  interleaves : Option (List InsRec)
deriving Repr, DecidableEq

/-- `edgeMeta.live_recording`: the edge-scoped metadata subtree. -/
structure EdgeLiveRecording where
  recordings : Option Recordings
  playout_config : Option PlayoutConfig
deriving Repr, DecidableEq

/-- The document returned by the edge-scoped `ContentObjectMetadata` read
(lines 112-116).  When `fabric_config.edge_write_token` is empty or absent,
the client falls back to reading the object's latest committed metadata; the
model takes whatever document that read returned as input. -/
structure EdgeMeta where
  live_recording : Option EdgeLiveRecording
deriving Repr, DecidableEq

/-- `mainMeta.live_recording.fabric_config` (lines 93-108). -/
structure FabricConfig where
  ingress_node_api : Option String
  edge_write_token : Option String
deriving Repr, DecidableEq

/-- `recording_config.recording_params` (line 106). -/
structure RecordingParams where
  origin_url : Option String
deriving Repr, DecidableEq

/-- `mainMeta.live_recording.recording_config` (line 106);
`recording_params = none` models an absent `recording_params` object (reading
`origin_url` from it throws). -/
structure RecordingConfig where
  recording_params : Option RecordingParams
deriving Repr, DecidableEq

/-- `mainMeta.live_recording`: the top-level session-metadata subtree.
`fabric_config = none` / `recording_config = none` model the absent objects
(property access on them throws a TypeError). -/
structure MainLiveRecording where
  fabric_config : Option FabricConfig
  recording_config : Option RecordingConfig
deriving Repr, DecidableEq

/-- The top-level metadata document (line 88). -/
structure MainMeta where
  live_recording : Option MainLiveRecording
deriving Repr, DecidableEq

/-- Outcome of the `got(status.lro_status_url)` HTTP poll (lines 166-171):
* `ok state` - 2xx response whose JSON body carried that `state` string;
* `httpError c` - `got` threw with `error.response` present (non-2xx, code `c`);
* `networkError` - `got` threw with no response at all (connection-level
  failure), so `error.response` is `undefined` and the catch handler's
  `error.response.statusCode` itself throws a TypeError. -/
inductive LroPoll
  | ok (state : String)
  | httpError (statusCode : ℕ)
  | networkError
deriving Repr, DecidableEq

/-- All the external data one invocation of `Status` consumes. -/
structure StatusIn where
  name : String
  libraryId : String
  objectId : String
  mainMeta : MainMeta
  edgeMeta : EdgeMeta
  lroStatusUrl : String
  lro : LroPoll
  now_ms : ℤ
  stopLro : Bool
  stopCall : LroPoll
deriving Repr, DecidableEq

/-- The `recording_period` view assembled at lines 137-146.  The
locale-dependent display strings `start_time_text` / `end_time_text` are not
modelled. -/
structure RecordingPeriodOut where
  activation_time_epoch_sec : ℚ
  start_time_epoch_sec : ℚ
  end_time_epoch_sec : ℚ
  video_parts : ℕ
  video_last_part_finalized_epoch_sec : ℚ
  video_since_last_finalize_sec : ℚ
deriving Repr, DecidableEq

/-- One mirrored insertion in the status summary (line 160). -/
structure InsOut where
  insertion_time : ℚ
  target : String
deriving Repr, DecidableEq

/-- The `status` object that `Status` builds incrementally and returns.
Fields are `none` until (and unless) the corresponding JS assignment ran. -/
structure StatusOut where
  name : String
  library_id : Option String := none
  object_id : Option String := none
  fabric_api : Option String := none
  url : Option String := none
  edge_write_token : Option String := none
  stream_id : Option String := none
  recording_period_sequence : Option ℤ := none
  tlro : Option String := none
  recording_period : Option RecordingPeriodOut := none
  lro_status_url : Option String := none
  insertions : Option (List InsOut) := none
  state : Option String := none
deriving Repr, DecidableEq

/-- The `inactive` guard of lines 119-121:
`edgeMeta.live_recording == undefined || ...recordings == undefined ||
...recordings.recording_sequence == undefined`. -/
def edgeNeverStarted (em : EdgeMeta) : Bool :=
  match em.live_recording with
  | none => true
  | some elr =>
    match elr.recordings with
    | none => true
    | some recs => recs.recording_sequence.isNone

/-- The body of the `try` block of `Status` (lines 82-194).  Returns the
`status` object as it stood when control left the block, together with the
exception that aborted it, if any (the JS `status` local is mutated in place,
so the catch-all at lines 195-197 leaves the partial object observable). -/
def statusTry (inp : StatusIn) : StatusOut × Option JsErr :=
  let s : StatusOut := { name := inp.name }
  let s := { s with library_id := some inp.libraryId, object_id := some inp.objectId }
  match inp.mainMeta.live_recording with
  | none => (s, some (.typeError "Cannot read properties of undefined (reading fabric_config)"))
  | some lrm =>
  match lrm.fabric_config with
  | none => (s, some (.typeError "Cannot read properties of undefined (reading ingress_node_api)"))
  | some fc =>
  match fc.ingress_node_api with
  | none =>
    -- line 95 logs "bad fabric config - missing ingress node API" but does not
    -- return; line 99 then calls fabURI.startsWith on undefined and throws.
    (s, some (.typeError "Cannot read properties of undefined (reading startsWith)"))
  | some api =>
  let fabURI := if api.startsWith "http" then api else "https://" ++ api
  let s := { s with fabric_api := some fabURI }
  match lrm.recording_config with
  | none => (s, some (.typeError "Cannot read properties of undefined (reading recording_params)"))
  | some rc =>
  match rc.recording_params with
  | none => (s, some (.typeError "Cannot read properties of undefined (reading origin_url)"))
  | some rp =>
  let s := { s with url := rp.origin_url }
  let ewt := fc.edge_write_token
  let s := { s with edge_write_token := ewt, stream_id := ewt }
  -- lines 119-124: the state is 'inactive' iff the edge-scoped document lacks
  -- a recordings.recording_sequence entry (no check of the token itself).
  match inp.edgeMeta.live_recording with
  | none => ({ s with state := some "inactive" }, none)
  | some elr =>
  match elr.recordings with
  | none => ({ s with state := some "inactive" }, none)
  | some recs =>
  match recs.recording_sequence with
  | none => ({ s with state := some "inactive" }, none)
  | some seq =>
  let s := { s with recording_period_sequence := some seq }
  -- line 129: recordings.live_offering[recording_sequence - 1]; an
  -- out-of-range index gives undefined and line 131 then throws.
  match (if 0 ≤ seq - 1 then recs.live_offering.get? (seq - 1).toNat else none) with
  | none => (s, some (.typeError "Cannot read properties of undefined (reading live_recording_handle)"))
  | some period =>
  let s := { s with tlro := some period.live_recording_handle }
  let lft := period.video_finalized_parts_info.last_finalization_time
  -- lines 134-135: Math.floor(Date.now()/1000) - last_finalization_time/1000000
  let sinceLastFinalize : ℚ := ((Int.fdiv inp.now_ms 1000 : ℤ) : ℚ) - lft / 1000000
  let rpOut : RecordingPeriodOut :=
    { activation_time_epoch_sec := period.recording_start_time_epoch_sec
      start_time_epoch_sec := period.start_time_epoch_sec
      end_time_epoch_sec := period.end_time_epoch_sec
      video_parts := period.video_finalized_parts_info.n_parts
      video_last_part_finalized_epoch_sec := lft / 1000000
      video_since_last_finalize_sec := sinceLastFinalize }
  let s := { s with recording_period := some rpOut }
  let s := { s with lro_status_url := some inp.lroStatusUrl }
  let s := { s with insertions := some [] }
  match elr.playout_config with
  | none => (s, some (.typeError "Cannot read properties of undefined (reading interleaves)"))
  | some pc =>
  let s := { s with insertions := some ((pc.interleaves.getD []).map
    fun r => { insertion_time := r.insertion_time, target := r.playout }) }
  -- lines 164-177: poll the LRO; a caught HTTP failure leaves state "stopped",
  -- but a response-less failure makes the catch handler itself throw.
  match inp.lro with
  | .networkError => (s, some (.typeError "Cannot read properties of undefined (reading statusCode)"))
  | lroRes =>
  let state0 := match lroRes with
    | .ok st => st
    | _ => "stopped"
  let state :=
    if state0 = "running" ∧ lft = 0 then "starting"
    else if state0 = "running" ∧ sinceLastFinalize > 32.9 then "stalled"
    else state0
  let s := { s with state := some state }
  -- lines 179-193: optional best-effort stop of the LRO; it never touches the
  -- status object, but a response-less failure again throws in the handler.
  let stopErr : Option JsErr :=
    if (state = "running" ∨ state = "stalled" ∨ state = "starting") ∧ inp.stopLro then
      match inp.stopCall with
      | .networkError => some (.typeError "Cannot read properties of undefined (reading statusCode)")
      | _ => none
    else none
  (s, stopErr)

/-- `Status` (lines 76-200): the catch-all at 195-197 only logs, and the
`return status` at line 199 is outside the `try`, so the caller always
receives the (possibly partial) status object. -/
def Status (inp : StatusIn) : StatusOut :=
  (statusTry inp).1

/-- The full call semantics of `Status` as seen by a caller: the promise
always resolves with the status object; no exception ever escapes (the body
is `statusTry` whose error, if any, is swallowed at lines 195-197). -/
def StatusCall (inp : StatusIn) : Except JsErr StatusOut :=
  .ok (Status inp)

/-- Result of one of the bounded wait loops of `StartOrStopOrReset`
(lines 367-379 and 403-409):
`let tries = 10; while (status.state != target && tries-- > 0)
   { await sleep(1000); status = await this.Status({name}); }`
`state` is the `status.state` after the loop, `tries` is the JS `tries`
variable after its post-decrements (so `-1` exactly when the budget ran out),
`polls` is the number of `Status` re-polls performed and `sleep_ms` is the
total time spent in `sleep(1000)` calls. -/
structure WaitOut where
  state : Option String
  tries : ℤ
  polls : ℕ
  sleep_ms : ℕ
deriving Repr, DecidableEq

/-- The wait loop itself.  `poll i` is the `state` field of the `(i+1)`-th
re-polled status (the state of a successive `Status` call, `none` when the
poll produced a partial object with no state). -/
def waitForState (target : String) (poll : ℕ → Option String) :
    Option String → ℕ → ℕ → WaitOut
  | s, tries, i =>
    if s = some target then
      { state := s, tries := (tries : ℤ), polls := i, sleep_ms := 1000 * i }
    else
      match tries with
      | 0 => { state := s, tries := -1, polls := i, sleep_ms := 1000 * i }
      | t + 1 => waitForState target poll (poll i) t (i + 1)

/-- What `StartOrStopOrReset` hands back to its caller: either the current
status object (represented by its `state` field) or the structured
`{state, error}` record of lines 397-400. -/
inductive OrchReturn
  | status (state : Option String)
  | errorResult (state : Option String) (error : String)
deriving Repr, DecidableEq

/-- Observable outcome of `StartOrStopOrReset`, with instrumentation for the
two bounded loops (how many `Status` re-polls each made and how long the
termination loop slept). -/
structure OrchOut where
  result : OrchReturn
  termPolls : ℕ
  termSleepMs : ℕ
  startPolls : ℕ
deriving Repr, DecidableEq

/-- `StartOrStopOrReset` (lines 343-417).  Inputs: `op` is `"start"`,
`"stop"` or `"reset"`; `s0` is the `state` of the initial `Status` call;
`termPoll` / `startPoll` are the states of the successive `Status` re-polls
of the termination and start loops; `startCallFails` tells whether the
best-effort `/live/start` bitcode call threw (the `/live/stop` call's own
failure is swallowed at lines 362-365 and has no observable effect). -/
def StartOrStopOrReset (op : String) (s0 : Option String)
    (termPoll startPoll : ℕ → Option String) (startCallFails : Bool) : OrchOut :=
  if s0 ≠ some "terminated" ∧ s0 ≠ some "inactive" then
    if op = "start" then
      { result := .status s0, termPolls := 0, termSleepMs := 0, startPolls := 0 }
    else
      let w := waitForState "terminated" termPoll s0 10 0
      if w.tries ≤ 0 then
        { result := .status w.state, termPolls := w.polls, termSleepMs := w.sleep_ms,
          startPolls := 0 }
      else if op = "stop" then
        { result := .status w.state, termPolls := w.polls, termSleepMs := w.sleep_ms,
          startPolls := 0 }
      else if startCallFails then
        { result := .errorResult w.state "LRO start failed - must create a stream first",
          termPolls := w.polls, termSleepMs := w.sleep_ms, startPolls := 0 }
      else
        let w2 := waitForState "starting" startPoll w.state 10 0
        { result := .status w2.state, termPolls := w.polls, termSleepMs := w.sleep_ms,
          startPolls := w2.polls }
  else
    if op = "stop" then
      { result := .status s0, termPolls := 0, termSleepMs := 0, startPolls := 0 }
    else if startCallFails then
      { result := .errorResult s0 "LRO start failed - must create a stream first",
        termPolls := 0, termSleepMs := 0, startPolls := 0 }
    else
      let w2 := waitForState "starting" startPoll s0 10 0
      { result := .status w2.state, termPolls := 0, termSleepMs := 0,
        startPolls := w2.polls }

/-- A metadata write performed against the store (the observable side effects
of `StreamCreate`'s happy path, lines 254-277). -/
inductive WriteOp
  | mergeMeta (libraryId objectId writeToken edgeToken : String)
  | finalize (libraryId objectId writeToken : String)
deriving Repr, DecidableEq

/-- External data consumed by `StreamCreate` (lines 205-331): the state of
the initial `Status` call, the ids it reported, and the tokens/hash returned
by the store for the two `EditContentObject` calls and the finalize. -/
structure CreateIn where
  name : String
  statusState : Option String
  statusObjectId : String
  libraryId : String
  ingressNodeApi : String
  edgeToken : String
  writeToken : String
  objectHash : String
deriving Repr, DecidableEq

/-- What `StreamCreate` returns: the structured conflict record of
lines 209-212, or the created-session status of lines 318-326. -/
inductive CreateResult
  | conflict (state : Option String) (error : String)
  | created (object_id hash library_id stream_id edge_write_token fabric_api
      state : String)
deriving Repr, DecidableEq

/-- `StreamCreate` (lines 205-331), with the metadata writes it performs made
explicit.  The `show_curl` logging and the unawaited `start` chaining of
line 328 are not modelled (neither changes the returned record or the
writes). -/
def StreamCreate (inp : CreateIn) : CreateResult × List WriteOp :=
  if inp.statusState ≠ some "inactive" ∧ inp.statusState ≠ some "terminated" then
    (.conflict inp.statusState "stream still active - must terminate first", [])
  else
    let fabURI := if inp.ingressNodeApi.startsWith "http" then inp.ingressNodeApi
      else "https://" ++ inp.ingressNodeApi
    (.created inp.statusObjectId inp.objectHash inp.libraryId inp.edgeToken
        inp.edgeToken fabURI "stopped",
     [.mergeMeta inp.libraryId inp.statusObjectId inp.writeToken inp.edgeToken,
      .finalize inp.libraryId inp.statusObjectId inp.writeToken])

/-- The record built by `Insertion` at lines 706-712: fixed ABR durations,
caller-supplied time and duration, and the `/qfab/<hash>/rep/playout`
target. -/
def newInsertionRec (insertionTime duration : ℚ) (targetHash : String) : InsRec :=
  { insertion_time := insertionTime
    duration := duration
    audio_abr_duration := 2.005333
    video_abr_duration := 2.002002
    playout := "/qfab/" ++ targetHash ++ "/rep/playout" }

/-- The scan loop of `Insertion` (lines 714-742), mirrored with an explicit
index `i` into the original list `full` and the still-unscanned suffix (the
JS array is only mutated at the two `break` sites, so the scan always reads
the original list; at every call the suffix equals `full.drop i`).

* The validation branch (lines 715-718) compares each entry against
  `currentTime`, which is initialised to `-1` at line 704 and never updated;
  when it fires it calls `append(...)`, a function that is defined nowhere,
  so it throws a ReferenceError (there is no try/catch in `Insertion`).
* The remove branch (lines 719-723) is `insertions.splice(i, 1)`.
* The upsert branch (lines 725-740) builds
  `[...insertions.splice(0, i), newInsertion, ...insertions.splice(i)]`:
  the first `splice` mutates the array down to its last `n - i` elements, so
  the second `splice(i)` returns the elements at original positions `2*i`
  onward - `full.take i ++ newIns :: full.drop (2*i)` (for `i = 0` the other
  branch of the JS conditional yields the same `newIns :: full`). -/
def insLoopGo (remove : Bool) (insertionTime : ℚ) (newIns : InsRec)
    (full : List InsRec) : ℕ → List InsRec → Except JsErr (Bool × List InsRec)
  | _, [] => .ok (false, full)
  | i, x :: rest =>
    if x.insertion_time ≤ -1 then
      .error (.referenceError "append is not defined")
    else if remove then
      if x.insertion_time = insertionTime then
        .ok (false, full.take i ++ full.drop (i + 1))
      else insLoopGo remove insertionTime newIns full (i + 1) rest
    else
      if insertionTime < x.insertion_time then
        .ok (true, full.take i ++ newIns :: full.drop (2 * i))
      else insLoopGo remove insertionTime newIns full (i + 1) rest

/-- The `res` object returned by `Insertion` (lines 762-764): the collected
validation errors and the resulting interleave list. -/
structure InsertionOut where
  errors : List String
  insertions : List InsRec
deriving Repr, DecidableEq

/-- The pure core of `Insertion` (lines 667-765), as a function of the
interleave list read from the edge metadata (lines 697-700; `xs` is the list,
`[]` when `interleaves` was undefined).  On success the returned `errors` is
always `[]`: the only statement that could populate it (line 717) calls the
undefined `append` and therefore throws instead. -/
def Insertion (remove : Bool) (insertionTime duration : ℚ) (targetHash : String)
    (xs : List InsRec) : Except JsErr InsertionOut :=
  let newIns := newInsertionRec insertionTime duration targetHash
  match insLoopGo remove insertionTime newIns xs 0 xs with
  | .error e => .error e
  | .ok (insertionDone, ys) =>
    if ¬remove ∧ ¬insertionDone then
      .ok { errors := [], insertions := ys ++ [newIns] }
    else
      .ok { errors := [], insertions := ys }

/-! ### Sample inputs used to instantiate the theorems below -/

/-- A recording period with the given `last_finalization_time` (microseconds). -/
def samplePeriod (lft : ℚ) : RecordingPeriod :=
  { live_recording_handle := "h1", recording_start_time_epoch_sec := 100,
    start_time_epoch_sec := 100, end_time_epoch_sec := 0,
    video_finalized_parts_info := { n_parts := 3, last_finalization_time := lft } }

/-- A fabric config with the given ingress node and edge write token. -/
def sampleFC (api tok : Option String) : FabricConfig :=
  { ingress_node_api := api, edge_write_token := tok }

/-- A well-formed `live_recording` subtree of the top-level metadata. -/
def sampleMLR (api tok : Option String) : MainLiveRecording :=
  { fabric_config := some (sampleFC api tok),
    recording_config := some { recording_params := some { origin_url := some "udp://in" } } }

/-- A recordings entry holding one period. -/
def sampleRecs (lft : ℚ) : Recordings :=
  { recording_sequence := some 1, live_offering := [samplePeriod lft] }

/-- An edge `live_recording` subtree whose single period last finalized at
`lft` (microseconds). -/
def sampleELR (lft : ℚ) : EdgeLiveRecording :=
  { recordings := some (sampleRecs lft), playout_config := some { interleaves := none } }

/-- A fully populated `Status` input: the clock reads 10^9 ms. -/
def sampleStatusIn (tok : Option String) (lro : LroPoll) (lft : ℚ) : StatusIn :=
  { name := "s1", libraryId := "lib1", objectId := "obj1",
    mainMeta := { live_recording := some (sampleMLR (some "node.example.com") tok) },
    edgeMeta := { live_recording := some (sampleELR lft) },
    lroStatusUrl := "https://node.example.com/call/live/status/h1",
    lro := lro, now_ms := 1000000000, stopLro := false, stopCall := .ok "" }

/-! ### C1 - reconciliation of an LRO-reported `running` state -/

/-- C1: whenever the LRO status endpoint reports state `running`, the derived
state is `starting` if the current period's `last_finalization_time` is 0,
`stalled` if the seconds elapsed since the last finalization
(`Math.floor(now/1000) - last_finalization_time/1000000`) exceed 32.9, and
`running` otherwise (lines 164-177 of `Status`). -/
theorem Status_running_reconciliation (inp : StatusIn)
    (lrm : MainLiveRecording) (fc : FabricConfig) (api : String)
    (rc : RecordingConfig) (rp : RecordingParams)
    (elr : EdgeLiveRecording) (recs : Recordings) (seq : ℤ)
    (period : RecordingPeriod) (pc : PlayoutConfig)
    (h1 : inp.mainMeta.live_recording = some lrm)
    (h2 : lrm.fabric_config = some fc)
    (h3 : fc.ingress_node_api = some api)
    (h4 : lrm.recording_config = some rc)
    (h5 : rc.recording_params = some rp)
    (h6 : inp.edgeMeta.live_recording = some elr)
    (h7 : elr.recordings = some recs)
    (h8 : recs.recording_sequence = some seq)
    (h9 : 0 ≤ seq - 1)
    (h10 : recs.live_offering.get? (seq - 1).toNat = some period)
    (h11 : elr.playout_config = some pc)
    (h12 : inp.lro = .ok "running") :
    (Status inp).state = some
      (if period.video_finalized_parts_info.last_finalization_time = 0 then
        "starting"
      else if ((Int.fdiv inp.now_ms 1000 : ℤ) : ℚ)
          - period.video_finalized_parts_info.last_finalization_time / 1000000
          > 32.9 then
        "stalled"
      else "running") := by
  have h9' : (if 0 ≤ seq - 1 then recs.live_offering.get? (seq - 1).toNat else none)
      = some period := by rw [if_pos h9]; exact h10
  simp only [Status, statusTry, h1, h2, h3, h4, h5, h6, h7, h8, h9', h11, h12]
  by_cases hz : period.video_finalized_parts_info.last_finalization_time = 0
  · simp [hz]
  · by_cases hs : ((Int.fdiv inp.now_ms 1000 : ℤ) : ℚ)
        - period.video_finalized_parts_info.last_finalization_time / 1000000 > 32.9
    · simp [hz, hs]
    · simp [hz, hs]

/-- Witness for C1 at a concrete input: one period that never finalized and a
`running` LRO report derive `starting`. -/
theorem Status_running_reconciliation_witness :
    (Status (sampleStatusIn (some "tok") (.ok "running") 0)).state = some "starting" := by
  have h := Status_running_reconciliation (sampleStatusIn (some "tok") (.ok "running") 0)
    (sampleMLR (some "node.example.com") (some "tok"))
    (sampleFC (some "node.example.com") (some "tok")) "node.example.com"
    { recording_params := some { origin_url := some "udp://in" } }
    { origin_url := some "udp://in" }
    (sampleELR 0) (sampleRecs 0) 1 (samplePeriod 0) { interleaves := none }
    rfl rfl rfl rfl rfl rfl rfl rfl (by decide) rfl rfl rfl
  rw [h]
  decide

/-! ### C4 - create conflicts are structured results with no writes -/

/-- C4: when the derived state is neither `inactive` nor `terminated`,
`StreamCreate` performs no metadata writes and returns the structured
conflict record (lines 205-213) instead of raising. -/
theorem StreamCreate_conflict_no_writes (inp : CreateIn)
    (hInactive : inp.statusState ≠ some "inactive")
    (hTerminated : inp.statusState ≠ some "terminated") :
    StreamCreate inp
      = (.conflict inp.statusState "stream still active - must terminate first", []) := by
  unfold StreamCreate
  rw [if_pos ⟨hInactive, hTerminated⟩]

/-- Witness for C4: creating over a `running` session yields the conflict
record and the empty write trace. -/
theorem StreamCreate_conflict_no_writes_witness :
    StreamCreate
        { name := "s1", statusState := some "running", statusObjectId := "obj1",
          libraryId := "lib1", ingressNodeApi := "node.example.com",
          edgeToken := "tqw_e", writeToken := "tqw_w", objectHash := "hq_1" }
      = (.conflict (some "running") "stream still active - must terminate first", []) :=
  StreamCreate_conflict_no_writes
    { name := "s1", statusState := some "running", statusObjectId := "obj1",
      libraryId := "lib1", ingressNodeApi := "node.example.com",
      edgeToken := "tqw_e", writeToken := "tqw_w", objectHash := "hq_1" }
    (by decide) (by decide)

/-! ### C2 - an empty edge write token does NOT short-circuit `Status` -/

/-- Counterexample to C2: session metadata whose
`fabric_config.edge_write_token` is the empty string, while the document
returned by the edge-scoped read (which for an empty token falls back to the
object's latest metadata) does contain `recordings.recording_sequence`.
`Status` has no emptiness check (lines 108-124): it proceeds to the LRO poll
and derives `starting`, not `inactive`. -/
theorem Status_emptyToken_not_inactive_cex :
    (Status (sampleStatusIn (some "") (.ok "running") 0)).edge_write_token = some "" ∧
    (Status (sampleStatusIn (some "") (.ok "running") 0)).state = some "starting" ∧
    (Status (sampleStatusIn (some "") (.ok "running") 0)).state ≠ some "inactive" := by
  refine ⟨rfl, rfl, ?_⟩
  decide

/-- C2 as amended: with an empty `edge_write_token`, `Status` returns
`inactive` when (and only by virtue of the fact that) the edge-scoped read
lacks a `recordings.recording_sequence` entry - the guard of lines 119-124;
in that case the result is produced before the LRO poll and is independent
of it.  Token emptiness by itself does not short-circuit the derivation.
(This is the forward direction only: when a recording sequence is present,
the derivation continues to the LRO poll, whose reported state - possibly
itself the string `inactive` - passes through lines 164-177.) -/
theorem Status_emptyToken_inactive_guard (inp : StatusIn)
    (lrm : MainLiveRecording) (fc : FabricConfig) (api : String)
    (rc : RecordingConfig) (rp : RecordingParams)
    (h1 : inp.mainMeta.live_recording = some lrm)
    (h2 : lrm.fabric_config = some fc)
    (h3 : fc.ingress_node_api = some api)
    (h4 : lrm.recording_config = some rc)
    (h5 : rc.recording_params = some rp)
    (hEmpty : fc.edge_write_token = some "")
    (hNever : edgeNeverStarted inp.edgeMeta = true) :
    (Status inp).state = some "inactive" ∧
    ∀ l, Status { inp with lro := l } = Status inp := by
  unfold edgeNeverStarted at hNever
  cases hem : inp.edgeMeta.live_recording with
  | none =>
    constructor
    · simp only [Status, statusTry, h1, h2, h3, h4, h5, hem]
    · intro l
      simp only [Status, statusTry, h1, h2, h3, h4, h5, hem]
  | some elr =>
    simp only [hem] at hNever
    cases hrec : elr.recordings with
    | none =>
      constructor
      · simp only [Status, statusTry, h1, h2, h3, h4, h5, hem, hrec]
      · intro l
        simp only [Status, statusTry, h1, h2, h3, h4, h5, hem, hrec]
    | some recs =>
      simp only [hrec] at hNever
      have hseq : recs.recording_sequence = none := by
        simpa [Option.isNone_iff_eq_none] using hNever
      constructor
      · simp only [Status, statusTry, h1, h2, h3, h4, h5, hem, hrec, hseq]
      · intro l
        simp only [Status, statusTry, h1, h2, h3, h4, h5, hem, hrec, hseq]

/-- Witness for the amended C2: empty token and an edge document with no
recordings derive `inactive`, whatever the LRO poll would have said. -/
theorem Status_emptyToken_inactive_guard_witness :
    (Status { sampleStatusIn (some "") (.ok "running") 0 with
        edgeMeta := { live_recording := none } }).state = some "inactive" := by
  have h := Status_emptyToken_inactive_guard
    { sampleStatusIn (some "") (.ok "running") 0 with edgeMeta := { live_recording := none } }
    (sampleMLR (some "node.example.com") (some ""))
    (sampleFC (some "node.example.com") (some "")) "node.example.com"
    { recording_params := some { origin_url := some "udp://in" } }
    { origin_url := some "udp://in" }
    rfl rfl rfl rfl rfl rfl rfl
  exact h.1

/-! ### C8 - missing ingress node API: logged, then swallowed, not fatal -/

/-- Counterexample to C8: with `ingress_node_api` missing, `Status` does not
abort.  Line 95 only logs; line 99 then throws a TypeError that the blanket
catch at 195-197 swallows, and the call resolves with the partial status
object (name and ids, no state) - so a summary is returned, not an error. -/
theorem Status_missing_ingress_returns_cex :
    StatusCall { sampleStatusIn (some "t") (.ok "running") 0 with
        mainMeta := { live_recording := some (sampleMLR none (some "t")) } }
      = .ok { name := "s1", library_id := some "lib1", object_id := some "obj1" } ∧
    (Status { sampleStatusIn (some "t") (.ok "running") 0 with
        mainMeta := { live_recording := some (sampleMLR none (some "t")) } }).state
      = none :=
  ⟨rfl, rfl⟩

/-- C8 as amended: a missing `ingress_node_api` makes the try body throw a
TypeError at the `startsWith` call of line 99 (after the diagnostic log of
line 95); the catch-all swallows it and `Status` returns the partial record
holding only the name and ids, with no `state` - it never aborts the call. -/
theorem Status_missing_ingress_partial_return (inp : StatusIn)
    (lrm : MainLiveRecording) (fc : FabricConfig)
    (h1 : inp.mainMeta.live_recording = some lrm)
    (h2 : lrm.fabric_config = some fc)
    (h3 : fc.ingress_node_api = none) :
    Status inp = { name := inp.name, library_id := some inp.libraryId,
                   object_id := some inp.objectId } ∧
    (statusTry inp).2
      = some (.typeError "Cannot read properties of undefined (reading startsWith)") := by
  constructor
  · simp only [Status, statusTry, h1, h2, h3]
  · simp only [statusTry, h1, h2, h3]

/-- Witness for the amended C8 at a concrete input. -/
theorem Status_missing_ingress_partial_return_witness :
    Status { sampleStatusIn (some "t2") (.ok "running") 0 with
        mainMeta := { live_recording := some (sampleMLR none (some "t2")) } }
      = { name := "s1", library_id := some "lib1", object_id := some "obj1" } := by
  have h := Status_missing_ingress_partial_return
    { sampleStatusIn (some "t2") (.ok "running") 0 with
        mainMeta := { live_recording := some (sampleMLR none (some "t2")) } }
    (sampleMLR none (some "t2")) (sampleFC none (some "t2")) rfl rfl rfl
  exact h.1

/-! ### C9 - LRO poll failure: HTTP errors yield `stopped`, network errors
yield a partial summary -/

/-- Counterexample to C9: when the LRO poll fails at the connection level
(`got` throws with no `error.response`), the catch handler of line 170 itself
throws reading `error.response.statusCode`; the outer catch swallows that,
and the returned summary has NO state at all - not `stopped`. -/
theorem Status_network_error_no_state_cex :
    (Status (sampleStatusIn (some "tok") .networkError 5)).state = none ∧
    (Status (sampleStatusIn (some "tok") .networkError 5)).state ≠ some "stopped" := by
  refine ⟨rfl, ?_⟩
  decide

/-- C9 as amended: a non-2xx HTTP response on the LRO poll is caught and the
derivation falls back to state `stopped`; a response-less network failure
instead breaks the catch handler itself, and `Status` returns the
accumulated summary with no `state` field. -/
theorem Status_poll_failure_modes (inp : StatusIn)
    (lrm : MainLiveRecording) (fc : FabricConfig) (api : String)
    (rc : RecordingConfig) (rp : RecordingParams)
    (elr : EdgeLiveRecording) (recs : Recordings) (seq : ℤ)
    (period : RecordingPeriod) (pc : PlayoutConfig)
    (h1 : inp.mainMeta.live_recording = some lrm)
    (h2 : lrm.fabric_config = some fc)
    (h3 : fc.ingress_node_api = some api)
    (h4 : lrm.recording_config = some rc)
    (h5 : rc.recording_params = some rp)
    (h6 : inp.edgeMeta.live_recording = some elr)
    (h7 : elr.recordings = some recs)
    (h8 : recs.recording_sequence = some seq)
    (h9 : 0 ≤ seq - 1)
    (h10 : recs.live_offering.get? (seq - 1).toNat = some period)
    (h11 : elr.playout_config = some pc) :
    (∀ c, inp.lro = .httpError c → (Status inp).state = some "stopped") ∧
    (inp.lro = .networkError → (Status inp).state = none) := by
  have h9' : (if 0 ≤ seq - 1 then recs.live_offering.get? (seq - 1).toNat else none)
      = some period := by rw [if_pos h9]; exact h10
  have hne : ("stopped" : String) ≠ "running" := by decide
  constructor
  · intro c h12
    simp only [Status, statusTry, h1, h2, h3, h4, h5, h6, h7, h8, h9', h11, h12]
    simp [hne]
  · intro h12
    simp only [Status, statusTry, h1, h2, h3, h4, h5, h6, h7, h8, h9', h11, h12]

/-- Witness for the amended C9: a 500 on the LRO poll derives `stopped`. -/
theorem Status_poll_failure_modes_witness :
    (Status (sampleStatusIn (some "tok") (.httpError 500) 7)).state = some "stopped" := by
  have h := Status_poll_failure_modes (sampleStatusIn (some "tok") (.httpError 500) 7)
    (sampleMLR (some "node.example.com") (some "tok"))
    (sampleFC (some "node.example.com") (some "tok")) "node.example.com"
    { recording_params := some { origin_url := some "udp://in" } }
    { origin_url := some "udp://in" }
    (sampleELR 7) (sampleRecs 7) 1 (samplePeriod 7) { interleaves := none }
    rfl rfl rfl rfl rfl rfl rfl rfl (by decide) rfl rfl
  exact h.1 500 rfl

/-! ### C3 - the bounded termination poll loop -/

/-- Every run of the wait loop sleeps exactly one second per re-poll. -/
lemma waitForState_sleep_eq (target : String) (poll : ℕ → Option String) :
    ∀ (tries : ℕ) (s : Option String) (i : ℕ),
      (waitForState target poll s tries i).sleep_ms
        = 1000 * (waitForState target poll s tries i).polls := by
  intro tries
  induction tries with
  | zero =>
    intro s i
    rw [waitForState]
    split <;> rfl
  | succ t ih =>
    intro s i
    rw [waitForState]
    split
    · rfl
    · exact ih (poll i) (i + 1)

/-- The wait loop performs at most `tries` re-polls beyond the `i` already
counted. -/
lemma waitForState_polls_le (target : String) (poll : ℕ → Option String) :
    ∀ (tries : ℕ) (s : Option String) (i : ℕ),
      (waitForState target poll s tries i).polls ≤ i + tries := by
  intro tries
  induction tries with
  | zero =>
    intro s i
    rw [waitForState]
    split <;> simp
  | succ t ih =>
    intro s i
    rw [waitForState]
    split
    · simp
    · calc (waitForState target poll (poll i) t (i + 1)).polls
          ≤ (i + 1) + t := ih (poll i) (i + 1)
        _ = i + (t + 1) := by omega

/-- One-step unfolding of the wait loop (its structural recursion makes this
hold by computation). -/
lemma waitForState_step (target : String) (poll : ℕ → Option String)
    (s : Option String) (tries i : ℕ) :
    waitForState target poll s tries i
      = if s = some target then
          { state := s, tries := (tries : ℤ), polls := i, sleep_ms := 1000 * i }
        else
          match tries with
          | 0 => { state := s, tries := -1, polls := i, sleep_ms := 1000 * i }
          | t + 1 => waitForState target poll (poll i) t (i + 1) := by
  cases tries with
  | zero => rw [waitForState]
  | succ t => rw [waitForState]

/-- If no re-poll within the budget reports the target state, the loop runs
its full budget: `tries` ends at `-1` and the final state is the last
re-polled one. -/
lemma waitForState_exhaust (target : String) (poll : ℕ → Option String) :
    ∀ (tries : ℕ) (s : Option String) (i : ℕ),
      1 ≤ tries →
      s ≠ some target →
      (∀ k, k < tries → poll (i + k) ≠ some target) →
      waitForState target poll s tries i
        = { state := poll (i + tries - 1), tries := -1, polls := i + tries,
            sleep_ms := 1000 * (i + tries) } := by
  intro tries
  induction tries with
  | zero => intro s i h; omega
  | succ t ih =>
    intro s i _ hs hp
    rw [waitForState, if_neg hs]
    rcases Nat.eq_zero_or_pos t with rfl | ht
    · have h0 : poll i ≠ some target := by simpa using hp 0 (by omega)
      rw [waitForState, if_neg h0]
      simp
    · have h0 : poll i ≠ some target := by simpa using hp 0 (by omega)
      have hrec := ih (poll i) (i + 1) ht h0
        (fun k hk => by
          have := hp (k + 1) (by omega)
          simpa [Nat.add_assoc, Nat.add_comm 1 k] using this)
      rw [hrec, show i + 1 + t = i + (t + 1) from by omega]

/-- If the `(k+1)`-th re-poll is the first to report the target state (within
budget), the loop stops right there: `k + 1` re-polls, and `tries` retains
the unspent budget. -/
lemma waitForState_first_hit (target : String) (poll : ℕ → Option String) :
    ∀ (tries : ℕ) (k : ℕ) (s : Option String) (i : ℕ),
      s ≠ some target →
      k < tries →
      poll (i + k) = some target →
      (∀ j, j < k → poll (i + j) ≠ some target) →
      waitForState target poll s tries i
        = { state := some target, tries := ((tries - (k + 1) : ℕ) : ℤ),
            polls := i + k + 1, sleep_ms := 1000 * (i + k + 1) } := by
  intro tries
  induction tries with
  | zero => intro k s i _ hk; omega
  | succ t ih =>
    intro k s i hs hk hhit hfirst
    rw [waitForState, if_neg hs]
    cases k with
    | zero =>
      have h0 : poll i = some target := by simpa using hhit
      rw [waitForState_step, if_pos h0, h0]
      simp
    | succ j =>
      have h0 : poll i ≠ some target := by simpa using hfirst 0 (by omega)
      have hrec := ih j (poll i) (i + 1) h0 (by omega)
        (by simpa [Nat.add_assoc, Nat.add_comm 1 j] using hhit)
        (fun m hm => by
          have := hfirst (m + 1) (by omega)
          simpa [Nat.add_assoc, Nat.add_comm 1 m] using this)
      rw [hrec, show i + 1 + j = i + (j + 1) from by omega,
        show t - (j + 1) = t + 1 - (j + 1 + 1) from by omega]

/-- For a non-start op on an active session, the orchestrator's termination
loop accounting comes from one run of `waitForState` with budget 10. -/
lemma StartOrStopOrReset_term_fields (op : String) (s0 : Option String)
    (termPoll startPoll : ℕ → Option String) (startCallFails : Bool)
    (hns : ¬op = "start") (h1 : s0 ≠ some "terminated") (h2 : s0 ≠ some "inactive") :
    (StartOrStopOrReset op s0 termPoll startPoll startCallFails).termPolls
        = (waitForState "terminated" termPoll s0 10 0).polls ∧
    (StartOrStopOrReset op s0 termPoll startPoll startCallFails).termSleepMs
        = (waitForState "terminated" termPoll s0 10 0).sleep_ms := by
  unfold StartOrStopOrReset
  rw [if_pos (⟨h1, h2⟩ : s0 ≠ some "terminated" ∧ s0 ≠ some "inactive"), if_neg hns]
  by_cases ht : (waitForState "terminated" termPoll s0 10 0).tries ≤ 0
  · rw [if_pos ht]; exact ⟨rfl, rfl⟩
  · rw [if_neg ht]
    by_cases hstop : op = "stop"
    · rw [if_pos hstop]; exact ⟨rfl, rfl⟩
    · rw [if_neg hstop]
      by_cases hf : startCallFails
      · rw [if_pos hf]; exact ⟨rfl, rfl⟩
      · rw [if_neg hf]; exact ⟨rfl, rfl⟩

/-- For a non-start op on an active session whose termination loop exhausted
its budget (`tries ≤ 0` after the loop), the orchestrator returns the loop's
final status object. -/
lemma StartOrStopOrReset_timeout_result (op : String) (s0 : Option String)
    (termPoll startPoll : ℕ → Option String) (startCallFails : Bool)
    (hns : ¬op = "start") (h1 : s0 ≠ some "terminated") (h2 : s0 ≠ some "inactive")
    (ht : (waitForState "terminated" termPoll s0 10 0).tries ≤ 0) :
    (StartOrStopOrReset op s0 termPoll startPoll startCallFails).result
        = .status (waitForState "terminated" termPoll s0 10 0).state := by
  unfold StartOrStopOrReset
  rw [if_pos (⟨h1, h2⟩ : s0 ≠ some "terminated" ∧ s0 ≠ some "inactive"), if_neg hns,
    if_pos ht]

/-- C3: for a `stop` or `reset` on an active session, the orchestrator
re-polls `Status` at most 10 times, sleeping 1 second before each re-poll
(lines 367-373); it stops at the first re-poll that reports `terminated`;
and if none of the 10 re-polls does, it returns the last observed
(non-terminal) status object without throwing (lines 376-379, 382-384). -/
theorem StartOrStopOrReset_termination_budget
    (op : String) (s0 : Option String) (termPoll startPoll : ℕ → Option String)
    (startCallFails : Bool)
    (hop : op = "stop" ∨ op = "reset")
    (h1 : s0 ≠ some "terminated") (h2 : s0 ≠ some "inactive") :
    ((StartOrStopOrReset op s0 termPoll startPoll startCallFails).termPolls ≤ 10 ∧
     (StartOrStopOrReset op s0 termPoll startPoll startCallFails).termSleepMs
       = 1000 * (StartOrStopOrReset op s0 termPoll startPoll startCallFails).termPolls) ∧
    (∀ k, k < 10 → termPoll k = some "terminated" →
       (∀ j, j < k → termPoll j ≠ some "terminated") →
       (StartOrStopOrReset op s0 termPoll startPoll startCallFails).termPolls = k + 1) ∧
    ((∀ k, k < 10 → termPoll k ≠ some "terminated") →
       (StartOrStopOrReset op s0 termPoll startPoll startCallFails).result
           = .status (termPoll 9) ∧
       (StartOrStopOrReset op s0 termPoll startPoll startCallFails).termPolls = 10 ∧
       termPoll 9 ≠ some "terminated") := by
  have hns : ¬ op = "start" := by rcases hop with rfl | rfl <;> decide
  obtain ⟨hfp, hfs⟩ :=
    StartOrStopOrReset_term_fields op s0 termPoll startPoll startCallFails hns h1 h2
  refine ⟨⟨?_, ?_⟩, ?_, ?_⟩
  · rw [hfp]
    simpa using waitForState_polls_le "terminated" termPoll 10 s0 0
  · rw [hfp, hfs]
    exact waitForState_sleep_eq "terminated" termPoll 10 s0 0
  · intro k hk hhit hfirst
    have hfh := waitForState_first_hit "terminated" termPoll 10 k s0 0 h1 hk
      (by simpa using hhit) (fun j hj => by simpa using hfirst j hj)
    rw [hfp, hfh]
    simp
  · intro hnone
    have hex := waitForState_exhaust "terminated" termPoll 10 s0 0 (by omega) h1
      (fun k hk => by simpa using hnone k hk)
    have hres := StartOrStopOrReset_timeout_result op s0 termPoll startPoll
      startCallFails hns h1 h2 (by rw [hex]; norm_num)
    refine ⟨?_, ?_, hnone 9 (by omega)⟩
    · rw [hres, hex]
    · rw [hfp, hex]

/-- Witness for C3: stopping a `running` session whose first re-poll already
reports `terminated` performs exactly one re-poll. -/
theorem StartOrStopOrReset_termination_budget_witness :
    (StartOrStopOrReset "stop" (some "running") (fun _ => some "terminated")
        (fun _ => none) false).termPolls = 1 := by
  have h := StartOrStopOrReset_termination_budget "stop" (some "running")
    (fun _ => some "terminated") (fun _ => none) false (Or.inl rfl)
    (by decide) (by decide)
  exact h.2.1 0 (by omega) rfl (fun j hj => absurd hj (Nat.not_lt_zero j))

/-! ### The insertion scheduler - C5, C6, C7, C10 -/

/-- One scan step of the loop in remove mode (computation). -/
lemma insLoopGo_cons_true (t : ℚ) (newIns : InsRec) (full : List InsRec)
    (i : ℕ) (x : InsRec) (rest : List InsRec) :
    insLoopGo true t newIns full i (x :: rest)
      = if x.insertion_time ≤ -1 then .error (.referenceError "append is not defined")
        else if x.insertion_time = t then .ok (false, full.take i ++ full.drop (i + 1))
        else insLoopGo true t newIns full (i + 1) rest := rfl

/-- One scan step of the loop in upsert mode (computation). -/
lemma insLoopGo_cons_false (t : ℚ) (newIns : InsRec) (full : List InsRec)
    (i : ℕ) (x : InsRec) (rest : List InsRec) :
    insLoopGo false t newIns full i (x :: rest)
      = if x.insertion_time ≤ -1 then .error (.referenceError "append is not defined")
        else if t < x.insertion_time then
          .ok (true, full.take i ++ newIns :: full.drop (2 * i))
        else insLoopGo false t newIns full (i + 1) rest := rfl

/-- First-occurrence decomposition of a list with respect to a predicate. -/
lemma exists_first_split {α : Type} (p : α → Prop) :
    ∀ xs : List α, (∃ x ∈ xs, p x) →
      ∃ a x b, xs = a ++ x :: b ∧ p x ∧ ∀ y ∈ a, ¬ p y := by
  intro xs
  induction xs with
  | nil => rintro ⟨x, hx, -⟩; cases hx
  | cons z zs ih =>
    intro hex
    by_cases hz : p z
    · exact ⟨[], z, zs, rfl, hz, by simp⟩
    · obtain ⟨x, hx, hpx⟩ := hex
      rcases List.mem_cons.mp hx with rfl | hx2
      · exact absurd hpx hz
      · obtain ⟨a, x2, b, heq, hpx2, ha⟩ := ih ⟨x, hx2, hpx⟩
        refine ⟨z :: a, x2, b, by rw [heq]; rfl, hpx2, ?_⟩
        intro y hy
        rcases List.mem_cons.mp hy with rfl | hy2
        · exact hz
        · exact ha y hy2

/-- In remove mode, a scan over a suffix with no matching entry (and no entry
at or below the `-1` sentinel) leaves the list untouched. -/
lemma insLoopGo_remove_nomatch (t : ℚ) (newIns : InsRec) :
    ∀ (suf pre : List InsRec),
      (∀ x ∈ suf, (-1 : ℚ) < x.insertion_time) →
      (∀ x ∈ suf, x.insertion_time ≠ t) →
      insLoopGo true t newIns (pre ++ suf) pre.length suf = .ok (false, pre ++ suf) := by
  intro suf
  induction suf with
  | nil => intro pre _ _; rw [insLoopGo]
  | cons x rest ih =>
    intro pre hclean hnm
    have hx1 : ¬x.insertion_time ≤ -1 := not_le.mpr (hclean x (List.mem_cons_self x rest))
    have hx2 : ¬x.insertion_time = t := hnm x (List.mem_cons_self x rest)
    rw [insLoopGo_cons_true, if_neg hx1, if_neg hx2]
    have e1 : pre ++ x :: rest = (pre ++ [x]) ++ rest := by simp
    have e2 : pre.length + 1 = (pre ++ [x]).length := by simp
    rw [e1, e2]
    exact ih (pre ++ [x])
      (fun y hy => hclean y (List.mem_cons_of_mem x hy))
      (fun y hy => hnm y (List.mem_cons_of_mem x hy))

/-- In remove mode, the scan deletes exactly the first matching entry:
`splice(i, 1)` on the index of the first element whose time equals the
target. -/
lemma insLoopGo_remove_first (t : ℚ) (newIns : InsRec) :
    ∀ (a pre : List InsRec) (x : InsRec) (b : List InsRec),
      (∀ y ∈ a, (-1 : ℚ) < y.insertion_time) →
      (∀ y ∈ a, y.insertion_time ≠ t) →
      (-1 : ℚ) < x.insertion_time →
      x.insertion_time = t →
      insLoopGo true t newIns (pre ++ (a ++ x :: b)) pre.length (a ++ x :: b)
        = .ok (false, pre ++ (a ++ b)) := by
  intro a
  induction a with
  | nil =>
    intro pre x b _ _ hx1 hx2
    have hx1' : ¬x.insertion_time ≤ -1 := not_le.mpr hx1
    rw [List.nil_append, insLoopGo_cons_true, if_neg hx1', if_pos hx2]
    have h1 : (pre ++ x :: b).take pre.length = pre := by simp
    have h2 : (pre ++ x :: b).drop (pre.length + 1) = b := by
      rw [show pre ++ x :: b = (pre ++ [x]) ++ b from by simp,
        show pre.length + 1 = (pre ++ [x]).length from by simp, List.drop_left]
    rw [h1, h2]
    simp
  | cons y a2 ih =>
    intro pre x b hclean hnm hx1 hx2
    have hy1 : ¬y.insertion_time ≤ -1 :=
      not_le.mpr (hclean y (List.mem_cons_self y a2))
    have hy2 : ¬y.insertion_time = t := hnm y (List.mem_cons_self y a2)
    rw [List.cons_append, insLoopGo_cons_true, if_neg hy1, if_neg hy2]
    have e1 : pre ++ y :: (a2 ++ x :: b) = (pre ++ [y]) ++ (a2 ++ x :: b) := by simp
    have e2 : pre.length + 1 = (pre ++ [y]).length := by simp
    rw [e1, e2, ih (pre ++ [y]) x b
      (fun z hz => hclean z (List.mem_cons_of_mem y hz))
      (fun z hz => hnm z (List.mem_cons_of_mem y hz)) hx1 hx2]
    simp

/-- In upsert mode, a successful scan either left the list alone (no later
entry found, `done = false`) or produced a list in which the new record is
present and every element comes from the original list or is the new
record. -/
lemma insLoopGo_upsert_spec (t : ℚ) (newIns : InsRec) :
    ∀ (suf pre : List InsRec) (done : Bool) (ys : List InsRec),
      insLoopGo false t newIns (pre ++ suf) pre.length suf = .ok (done, ys) →
      (done = false ∧ ys = pre ++ suf) ∨
      (done = true ∧ newIns ∈ ys ∧ ∀ r ∈ ys, r ∈ pre ++ suf ∨ r = newIns) := by
  intro suf
  induction suf with
  | nil =>
    intro pre done ys h
    rw [insLoopGo] at h
    simp only [Except.ok.injEq, Prod.mk.injEq] at h
    exact Or.inl ⟨h.1.symm, h.2.symm⟩
  | cons x rest ih =>
    intro pre done ys h
    rw [insLoopGo_cons_false] at h
    by_cases hx1 : x.insertion_time ≤ -1
    · rw [if_pos hx1] at h; cases h
    · rw [if_neg hx1] at h
      by_cases hlt : t < x.insertion_time
      · rw [if_pos hlt] at h
        simp only [Except.ok.injEq, Prod.mk.injEq] at h
        obtain ⟨hdone, hys⟩ := h
        refine Or.inr ⟨hdone.symm, ?_, ?_⟩
        · rw [← hys]
          exact List.mem_append_right _ (List.mem_cons_self _ _)
        · intro r hr
          rw [← hys] at hr
          rcases List.mem_append.mp hr with hr1 | hr2
          · exact Or.inl (List.take_subset _ _ hr1)
          · rcases List.mem_cons.mp hr2 with rfl | hr3
            · exact Or.inr rfl
            · exact Or.inl (List.drop_subset _ _ hr3)
      · rw [if_neg hlt] at h
        have e1 : pre ++ x :: rest = (pre ++ [x]) ++ rest := by simp
        have e2 : pre.length + 1 = (pre ++ [x]).length := by simp
        rw [e1, e2] at h
        rcases ih (pre ++ [x]) done ys h with ⟨hd, hy⟩ | ⟨hd, hm, hs⟩
        · exact Or.inl ⟨hd, by simpa using hy⟩
        · exact Or.inr ⟨hd, hm, fun r hr => by simpa using hs r hr⟩

/-- Remove with no matching entry returns the list unchanged and no error
(given no entry at or below the `-1` validation sentinel, which would crash
the scan on the undefined `append`). -/
lemma Insertion_remove_eq_nomatch (t d : ℚ) (hash : String) (xs : List InsRec)
    (hclean : ∀ x ∈ xs, (-1 : ℚ) < x.insertion_time)
    (hnm : ∀ x ∈ xs, x.insertion_time ≠ t) :
    Insertion true t d hash xs = .ok { errors := [], insertions := xs } := by
  have h := insLoopGo_remove_nomatch t (newInsertionRec t d hash) xs [] hclean hnm
  simp only [List.nil_append, List.length_nil] at h
  simp only [Insertion]
  rw [h]
  simp

/-- Remove deletes exactly the first entry whose time equals the target. -/
lemma Insertion_remove_eq_split (t d : ℚ) (hash : String) (a : List InsRec)
    (x : InsRec) (b : List InsRec)
    (hclean : ∀ y ∈ a ++ x :: b, (-1 : ℚ) < y.insertion_time)
    (ha : ∀ y ∈ a, y.insertion_time ≠ t)
    (hx : x.insertion_time = t) :
    Insertion true t d hash (a ++ x :: b)
      = .ok { errors := [], insertions := a ++ b } := by
  have h := insLoopGo_remove_first t (newInsertionRec t d hash) a [] x b
    (fun y hy => hclean y (List.mem_append_left _ hy)) ha
    (hclean x (List.mem_append_right _ (List.mem_cons_self _ _))) hx
  simp only [List.nil_append, List.length_nil] at h
  simp only [Insertion]
  rw [h]
  simp

/-- C6: `Remove` deletes exactly the first entry whose `insertion_time`
equals the target; with no match the list is unchanged and no error is
reported; and - provided at most one entry carries the target time - a
second `Remove` of the same time is a no-op (lines 714-723).  All of this
assumes every entry's time exceeds `-1`, else the scan crashes (line 717). -/
theorem Insertion_remove_first_match (t d : ℚ) (hash : String) (xs : List InsRec)
    (hclean : ∀ x ∈ xs, (-1 : ℚ) < x.insertion_time) :
    ((∀ x ∈ xs, x.insertion_time ≠ t) →
        Insertion true t d hash xs = .ok { errors := [], insertions := xs }) ∧
    (∀ a x b, xs = a ++ x :: b → (∀ y ∈ a, y.insertion_time ≠ t) →
        x.insertion_time = t →
        Insertion true t d hash xs = .ok { errors := [], insertions := a ++ b }) ∧
    ((xs.countP fun y => decide (y.insertion_time = t)) ≤ 1 →
        ∀ ys, Insertion true t d hash xs = .ok { errors := [], insertions := ys } →
          Insertion true t d hash ys = .ok { errors := [], insertions := ys }) := by
  refine ⟨fun hnm => Insertion_remove_eq_nomatch t d hash xs hclean hnm,
    fun a x b hxs ha hx => by
      subst hxs
      exact Insertion_remove_eq_split t d hash a x b hclean ha hx,
    ?_⟩
  intro hcount ys hys
  by_cases hex : ∃ x ∈ xs, x.insertion_time = t
  · obtain ⟨a, x, b, hxs, hx, ha⟩ :=
      exists_first_split (fun y => y.insertion_time = t) xs hex
    subst hxs
    rw [Insertion_remove_eq_split t d hash a x b hclean ha hx] at hys
    simp only [Except.ok.injEq, InsertionOut.mk.injEq, true_and] at hys
    subst hys
    have hcz : (a.countP fun y => decide (y.insertion_time = t)) = 0 ∧
        (b.countP fun y => decide (y.insertion_time = t)) = 0 := by
      rw [List.countP_append, List.countP_cons_of_pos _ _ (by simpa using hx)] at hcount
      omega
    refine Insertion_remove_eq_nomatch t d hash (a ++ b) ?_ ?_
    · intro y hy
      rcases List.mem_append.mp hy with hy1 | hy2
      · exact hclean y (List.mem_append_left _ hy1)
      · exact hclean y (List.mem_append_right _ (List.mem_cons_of_mem x hy2))
    · intro y hy
      rcases List.mem_append.mp hy with hy1 | hy2
      · exact ha y hy1
      · have := List.countP_eq_zero.mp hcz.2 y hy2
        simpa using this
  · push_neg at hex
    rw [Insertion_remove_eq_nomatch t d hash xs hclean hex] at hys
    simp only [Except.ok.injEq, InsertionOut.mk.injEq, true_and] at hys
    subst hys
    exact Insertion_remove_eq_nomatch t d hash xs hclean hex

/-- Witness for C6 (Scenario C of the spec): removing time 20 from
`[10, 20, 30]` leaves `[10, 30]`. -/
theorem Insertion_remove_first_match_witness :
    Insertion true 20 5 "h"
        [newInsertionRec 10 1 "a", newInsertionRec 20 1 "b", newInsertionRec 30 1 "c"]
      = .ok { errors := [],
              insertions := [newInsertionRec 10 1 "a", newInsertionRec 30 1 "c"] } := by
  have h := (Insertion_remove_first_match 20 5 "h"
      [newInsertionRec 10 1 "a", newInsertionRec 20 1 "b", newInsertionRec 30 1 "c"]
      (by decide)).2.1
    [newInsertionRec 10 1 "a"] (newInsertionRec 20 1 "b") [newInsertionRec 30 1 "c"]
    rfl (by decide) (by decide)
  simpa using h

/-- Counterexample to C6's unconditional idempotence: with two entries at the
target time, the first `Remove` deletes one and the second deletes the other,
so applying `Remove` twice differs from applying it once. -/
theorem Insertion_remove_not_idempotent_cex :
    Insertion true 20 5 "h" [newInsertionRec 20 5 "h", newInsertionRec 20 5 "h"]
      = .ok { errors := [], insertions := [newInsertionRec 20 5 "h"] } ∧
    Insertion true 20 5 "h" [newInsertionRec 20 5 "h"]
      = .ok { errors := [], insertions := [] } ∧
    ([] : List InsRec) ≠ [newInsertionRec 20 5 "h"] := by
  refine ⟨rfl, rfl, ?_⟩
  decide

/-- C5 (code bug): upserting time 20 into `[10, 30]` must, per the spec,
splice the new record before the 30 entry, yielding `[10, 20, 30]`.  The
code instead evaluates
`[...insertions.splice(0, 1), newInsertion, ...insertions.splice(1)]`
(line 727-731): the first `splice` MUTATES the array, so the second returns
`[]` and the 30 entry is dropped - the result is `[10, 20]`. -/
theorem Insertion_upsert_drops_entry_bug :
    Insertion false 20 5 "h" [newInsertionRec 10 5 "a", newInsertionRec 30 5 "b"]
      = .ok { errors := [],
              insertions := [newInsertionRec 10 5 "a", newInsertionRec 20 5 "h"] } ∧
    newInsertionRec 30 5 "b"
      ∉ [newInsertionRec 10 5 "a", newInsertionRec 20 5 "h"] := by
  refine ⟨rfl, ?_⟩
  decide

/-- C7 (code bug): the validation pass never flags an out-of-order entry.
`currentTime` is initialised to `-1` (line 704) and never updated, so the
check of line 715 compares each entry with `-1` instead of the running
maximum: the out-of-order list `[10, 5]` produces `errors = []`.  And were
the check ever to fire (an entry at or below `-1`), line 717 calls the
undefined function `append`, crashing the call with a ReferenceError instead
of collecting an error. -/
theorem Insertion_validation_never_flags :
    Insertion false 20 5 "h" [newInsertionRec 10 5 "a", newInsertionRec 5 5 "b"]
      = .ok { errors := [],
              insertions := [newInsertionRec 10 5 "a", newInsertionRec 5 5 "b",
                             newInsertionRec 20 5 "h"] } ∧
    Insertion false 20 5 "h" [newInsertionRec (-2) 5 "c"]
      = .error (.referenceError "append is not defined") :=
  ⟨rfl, rfl⟩

/-- C10: every record an upsert adds is exactly `newInsertionRec t d hash`:
fixed `audio_abr_duration = 2.005333` and `video_abr_duration = 2.002002`,
playout target `"/qfab/" ++ hash ++ "/rep/playout"`, and the caller's
`insertionTime` and `duration` stored unmodified (lines 667-712). -/
theorem Insertion_upsert_record_constants (t d : ℚ) (hash : String)
    (xs : List InsRec) (out : InsertionOut)
    (h : Insertion false t d hash xs = .ok out) :
    newInsertionRec t d hash ∈ out.insertions ∧
    (∀ r ∈ out.insertions, r ∈ xs ∨ r = newInsertionRec t d hash) ∧
    (newInsertionRec t d hash).audio_abr_duration = 2.005333 ∧
    (newInsertionRec t d hash).video_abr_duration = 2.002002 ∧
    (newInsertionRec t d hash).playout = "/qfab/" ++ hash ++ "/rep/playout" ∧
    (newInsertionRec t d hash).insertion_time = t ∧
    (newInsertionRec t d hash).duration = d := by
  simp only [Insertion] at h
  cases hgo : insLoopGo false t (newInsertionRec t d hash) xs 0 xs with
  | error e => rw [hgo] at h; cases h
  | ok p =>
    obtain ⟨done, ys⟩ := p
    rw [hgo] at h
    have hspec := insLoopGo_upsert_spec t (newInsertionRec t d hash) xs []
      done ys (by simpa using hgo)
    cases done with
    | false =>
      rcases hspec with ⟨-, rfl⟩ | ⟨hcontra, -⟩
      · simp only [Bool.not_eq_true, Except.ok.injEq] at h
        norm_num at h
        subst h
        refine ⟨?_, ?_, rfl, rfl, rfl, rfl, rfl⟩
        · exact List.mem_append_right _ (List.mem_cons_self _ _)
        · intro r hr
          simp only [List.nil_append] at hr
          rcases List.mem_append.mp hr with hr1 | hr2
          · exact Or.inl (by simpa using hr1)
          · exact Or.inr (by simpa using hr2)
      · cases hcontra
    | true =>
      rcases hspec with ⟨hcontra, -⟩ | ⟨-, hmem, hsub⟩
      · cases hcontra
      · simp only [Bool.not_eq_true, Except.ok.injEq] at h
        norm_num at h
        subst h
        refine ⟨hmem, ?_, rfl, rfl, rfl, rfl, rfl⟩
        intro r hr
        have := hsub r hr
        simpa using this

/-- Witness for C10 (Scenario A of the spec): upserting into the empty list
produces exactly the one new record with the fixed constants. -/
theorem Insertion_upsert_record_constants_witness :
    newInsertionRec 100 5 "h1"
      ∈ InsertionOut.insertions
          { errors := [], insertions := [newInsertionRec 100 5 "h1"] } ∧
    (newInsertionRec 100 5 "h1").playout = "/qfab/" ++ "h1" ++ "/rep/playout" := by
  have h := Insertion_upsert_record_constants 100 5 "h1" []
    { errors := [], insertions := [newInsertionRec 100 5 "h1"] } rfl
  exact ⟨h.1, h.2.2.2.2.1⟩

end LiveStream
